import Mathlib

/-!
Shallow embedding of the `uv_database_update` ELT pipeline core
(`elt_config.py`, `elt_sources.py`, `elt_transform.py`).

Modelling conventions:
* SQL/pandas timestamps are encoded as `Nat`; the sentinel
  `pd.Timestamp("1900-01-01")` is encoded as `0` so that it is the minimum
  of the encoding.
* A SQL/pandas cell is a `Value`: SQL NULL / pandas NaT map to `Value.null`,
  text to `Value.text`, timestamps to `Value.time`, integers to `Value.int`.
* A database row is an association list from column name to `Value`; a
  column absent from a row reads as NULL, as it does in SQL when a row is
  inserted with an explicit column list.
* Python `str` values that the classifier manipulates character by
  character (filenames) are modelled as `List Char`; configuration keys and
  table names stay `String`.
* Fallible effects (a raised exception inside a `try`) are modelled with
  `Except String`.
-/

/-- A database / dataframe cell value.  `null` stands for SQL NULL and for
pandas NaT (the result of coercing an unparsable date). -/
inductive Value where
  | null : Value
  | text : String → Value
  | time : Nat → Value
  | int : Int → Value
deriving DecidableEq, Repr

/-- A row: association list from column name to cell value. -/
def Row : Type := List (String × Value)

instance : DecidableEq Row := by unfold Row; infer_instance

/-- Reading a column of a row; a missing column reads as SQL NULL. -/
def Row.get (r : Row) (c : String) : Value :=
  match List.lookup c r with
  | some v => v
  | none => Value.null

/-- SQL three-valued equality collapsed to a Bool: a comparison with NULL is
not true (`NULL = x` is UNKNOWN, so the row does not satisfy the predicate). -/
def Value.sqlEq : Value → Value → Bool
  | Value.null, _ => false
  | _, Value.null => false
  | a, b => a == b

/-- Static per-table configuration, mirroring one entry of `TABLE_CONFIG` in
`elt_config.py`. -/
structure TableConfig where
  incremental_column : String
  primary_key : List String
  write_disposition : String
  year_partitioned : Bool
  date_columns : List String
deriving DecidableEq, Repr

/-- The `crm_properties` entry of `TABLE_CONFIG`. -/
def crmPropertiesCfg : TableConfig :=
  { incremental_column := "last_change"
    primary_key := ["reference", "last_change"]
    write_disposition := "merge"
    year_partitioned := false
    date_columns := ["create_date", "last_change", "publish_date"] }

/-- The `crm_buyers` entry of `TABLE_CONFIG`. -/
def crmBuyersCfg : TableConfig :=
  { incremental_column := "createtime"
    primary_key := ["entityid", "createtime"]
    write_disposition := "append"
    year_partitioned := true
    date_columns := ["createtime"] }

/-- The `crm_sellers` entry of `TABLE_CONFIG`. -/
def crmSellersCfg : TableConfig :=
  { incremental_column := "createtime"
    primary_key := ["entityid", "createtime"]
    write_disposition := "append"
    year_partitioned := true
    date_columns := ["createtime"] }

/-- The `crm_buyers_sellers` entry of `TABLE_CONFIG`. -/
def crmBuyersSellersCfg : TableConfig :=
  { incremental_column := "createtime"
    primary_key := ["entityid", "createtime"]
    write_disposition := "append"
    year_partitioned := true
    date_columns := ["createtime"] }

/-- The `crm_leads` entry of `TABLE_CONFIG`. -/
def crmLeadsCfg : TableConfig :=
  { incremental_column := "lastupdate"
    primary_key := ["eventid", "lastupdate"]
    write_disposition := "merge"
    year_partitioned := true
    date_columns := ["createdate", "startdate", "enddate", "lastupdate"] }

/-- The `crm_events` entry of `TABLE_CONFIG`. -/
def crmEventsCfg : TableConfig :=
  { incremental_column := "eventdate"
    primary_key := ["eventid", "eventdate"]
    write_disposition := "append"
    year_partitioned := true
    date_columns := ["eventdate"] }

/-- The `crm_archived` entry of `TABLE_CONFIG`. -/
def crmArchivedCfg : TableConfig :=
  { incremental_column := "createtime"
    primary_key := ["entityid", "createtime"]
    write_disposition := "append"
    year_partitioned := true
    date_columns := ["createtime"] }

/-- `TABLE_CONFIG` from `elt_config.py`: ordered mapping from table name to
configuration (Python dicts preserve insertion order). -/
def TABLE_CONFIG : List (String × TableConfig) :=
  [("crm_properties", crmPropertiesCfg),
   ("crm_buyers", crmBuyersCfg),
   ("crm_sellers", crmSellersCfg),
   ("crm_buyers_sellers", crmBuyersSellersCfg),
   ("crm_leads", crmLeadsCfg),
   ("crm_events", crmEventsCfg),
   ("crm_archived", crmArchivedCfg)]

/-!
### Column-expression construction (`_get_column_expressions`)

The information_schema queries are modelled by giving the function the two
schemas directly: the ordered association lists of (column name, declared
type) for `raw.<table>` and `bronze.<table>`, in ordinal position order
(dict keys are unique and ordered, matching `ORDER BY ordinal_position`).
-/

/-- Python `s.startswith(p)`, modelled on the character lists. -/
def strStartsWith (s p : String) : Bool :=
  p.toList.isPrefixOf s.toList

/-- One entry of the SELECT list built by `_get_column_expressions`: either a
bare quoted column reference or `CAST("col" AS bronzetype) AS "col"`. -/
inductive ColExpr where
  | plain : String → ColExpr
  | cast : String → String → ColExpr
deriving DecidableEq, Repr

/-- Declared type of a column in a schema, defaulting like `dict.get`. -/
def typeOf (schema : List (String × String)) (c : String) (dflt : String) : String :=
  match List.lookup c schema with
  | some t => t
  | none => dflt

/-- The ordered column list built by `_get_column_expressions`
(`elt_transform.py` lines 45-52): data columns first (skipping `_dlt_` and
`unnamed` prefixes), then `_dlt_` columns, restricted to columns that also
exist in bronze. -/
def orderedColumns (rawTypes bronzeTypes : List (String × String)) : List String :=
  let all_cols := rawTypes.map Prod.fst
  let data_cols := all_cols.filter
    (fun c => !(strStartsWith c "_dlt_") && !(strStartsWith c "unnamed"))
  let dlt_cols := all_cols.filter (fun c => strStartsWith c "_dlt_")
  (data_cols ++ dlt_cols).filter (fun c => (List.lookup c bronzeTypes).isSome)

/-- The SELECT expressions built by `_get_column_expressions`
(`elt_transform.py` lines 56-64): a CAST to the bronze type exactly when the
raw declared type differs from the bronze declared type. -/
def selectExprs (rawTypes bronzeTypes : List (String × String)) : List ColExpr :=
  (orderedColumns rawTypes bronzeTypes).map (fun col =>
    let raw_type := typeOf rawTypes col ""
    let bronze_type := typeOf bronzeTypes col raw_type
    if raw_type ≠ bronze_type then ColExpr.cast col bronze_type
    else ColExpr.plain col)

/-!
### Raw-to-bronze reconciliation (`transform_to_bronze`)
-/

/-- Projection performed by `INSERT INTO bronze (cols) SELECT exprs FROM raw`:
the inserted row carries exactly the selected columns (absent bronze columns
default to NULL via `Row.get`).  A CAST does not change the modelled value. -/
def projectRow (cols : List String) (r : Row) : Row :=
  cols.map (fun c => (c, r.get c))

/-- The join condition of the merge DELETE: every primary-key column of the
bronze row equals (SQL equality) the corresponding raw-row column. -/
def rowsMatch (pk : List String) (b r : Row) : Bool :=
  pk.all (fun c => Value.sqlEq (Row.get b c) (Row.get r c))

/-- `DELETE FROM bronze.t USING raw.t WHERE <pk join>`: keep the bronze rows
whose primary-key tuple matches no raw row. -/
def mergeDelete (pk : List String) (bronze raw : List Row) : List Row :=
  bronze.filter (fun b => !(raw.any (fun r => rowsMatch pk b r)))

/-- State of one table's raw and bronze relations together with their
declared schemas (the information_schema content). -/
structure TableState where
  rawTypes : List (String × String)
  bronzeTypes : List (String × String)
  raw : List Row
  bronze : List Row
deriving DecidableEq

/-- Per-table outcome recorded in the `results` dict of
`transform_to_bronze`. -/
inductive Outcome where
  | skipped : Nat → Outcome
  | success : Nat → Outcome
  | error : String → Outcome
deriving DecidableEq, Repr

/-- The per-table unit of work of `transform_to_bronze`
(`elt_transform.py` lines 96-139), on one table's state:
count raw rows (skip when zero); build the column expressions; on
`strategy == "merge" and primary_key` delete bronze rows whose primary-key
tuple appears in raw and insert all raw rows, otherwise append all raw rows.
`primary_key` is modelled as a list; the Python `isinstance` branch wrapping
a lone string into a one-element list is absorbed by that choice. -/
def runTable (config : TableConfig) (st : TableState) : TableState × Outcome :=
  if st.raw.length = 0 then (st, Outcome.skipped 0)
  else
    let cols := orderedColumns st.rawTypes st.bronzeTypes
    let inserted := st.raw.map (projectRow cols)
    if config.write_disposition = "merge" ∧ config.primary_key ≠ [] then
      ({ st with bronze := mergeDelete config.primary_key st.bronze st.raw ++ inserted },
       Outcome.success st.raw.length)
    else
      ({ st with bronze := st.bronze ++ inserted },
       Outcome.success st.raw.length)

/-- Database: mapping from table name to its table state. -/
def DB : Type := List (String × TableState)

/-- The empty table state (tables not present in the database map). -/
def emptyTableState : TableState :=
  { rawTypes := [], bronzeTypes := [], raw := [], bronze := [] }

/-- Read a table's state from the database. -/
def dbGet (db : DB) (t : String) : TableState :=
  match List.lookup t db with
  | some st => st
  | none => emptyTableState

/-- Update a table's state (prepend; `List.lookup` finds the newest entry). -/
def dbSet (db : DB) (t : String) (st : TableState) : DB :=
  (t, st) :: db

/-- The table loop of `transform_to_bronze` (`elt_transform.py` lines
90-146), abstracted over the per-table unit of work so that a raised
exception can be modelled: `Except.error e` stands for an exception escaping
the `with engine.begin()` block, in which case the transaction is rolled
back (the database is unchanged), the outcome `error e` is recorded, and the
loop continues with the remaining tables. -/
def transformWith
    (unit : String → TableConfig → TableState → Except String (TableState × Outcome)) :
    List (String × TableConfig) → DB → DB × List (String × Outcome)
  | [], db => (db, [])
  | (t, config) :: rest, db =>
    match unit t config (dbGet db t) with
    | Except.ok (st, oc) =>
      let r := transformWith unit rest (dbSet db t st)
      (r.1, (t, oc) :: r.2)
    | Except.error e =>
      let r := transformWith unit rest db
      (r.1, (t, Outcome.error e) :: r.2)

/-- The concrete (non-throwing) per-table unit of work. -/
def realUnit (_t : String) (config : TableConfig) (st : TableState) :
    Except String (TableState × Outcome) :=
  Except.ok (runTable config st)

/-- `transform_to_bronze`: run the per-table unit of work over every entry
of `TABLE_CONFIG`, returning the final database and the results map. -/
def transform_to_bronze (db : DB) : DB × List (String × Outcome) :=
  transformWith realUnit TABLE_CONFIG db

/-!
### Incremental extraction (`elt_sources.py`, `table_data`)

`table_data` receives a parsed dataframe whose date columns already hold
`Value.time`/`Value.null` cells (`pd.to_datetime(..., errors="coerce",
dayfirst=True)` turns every unparsable cell into NaT = `Value.null`) and
whose other columns hold text or nulls.  The dlt cursor `last_value` is a
`pd.Timestamp`: the guard `if last_value.last_value:` tests its truthiness,
and a `pd.Timestamp` (a `datetime` subclass with no `__bool__`) is always
truthy, so the guard always takes the filtering branch; the embedding
therefore applies the filter unconditionally when the incremental column is
present, with the cutoff passed as a plain `Nat`.
-/

/-- The sentinel minimum watermark `pd.Timestamp("1900-01-01")`
(`DEFAULT_INITIAL_VALUE` in `elt_sources.py`), encoded as the minimum of the
`Nat` timestamp encoding. -/
def DEFAULT_INITIAL_VALUE : Nat := 0

/-- The pandas comparison `cell > cutoff` on a parsed date column: true only
for an actual timestamp strictly above the cutoff; a NaT (null) cell
compares false. -/
def Value.gtTime : Value → Nat → Bool
  | Value.time t, cutoff => cutoff < t
  | _, _ => false

/-- A parsed dataframe: its (normalized) column names and its rows. -/
structure Frame where
  cols : List String
  rows : List Row
deriving DecidableEq

/-- The row-filtering core of `table_data` (`elt_sources.py` lines
123-136): when the incremental column is among the parsed columns, keep the
rows whose incremental value is strictly greater than the cutoff (the guard
on `last_value.last_value` is always true, see above); when the incremental
column is absent, keep every row. -/
def table_data (incremental_col : String) (cutoff : Nat) (df : Frame) : List Row :=
  if incremental_col ∈ df.cols then
    df.rows.filter (fun r => Value.gtTime (Row.get r incremental_col) cutoff)
  else
    df.rows

/-- The extraction filter as claim C3 words it (spec 4.2 step 5): filter
only when the cutoff is strictly greater than the sentinel minimum,
otherwise keep all rows.  Written from the spec for comparison with
`table_data`. -/
def specExtractFilter (incremental_col : String) (cutoff : Nat) (df : Frame) : List Row :=
  if incremental_col ∈ df.cols ∧ DEFAULT_INITIAL_VALUE < cutoff then
    df.rows.filter (fun r => Value.gtTime (Row.get r incremental_col) cutoff)
  else
    df.rows

/-!
### Watermark lookup (`elt_sources.py`, `get_last_filter_end`)
-/

/-- One row of `metadata.etl_run_log`. -/
structure RunLogEntry where
  table_name : String
  status : String
  filter_end : Option Nat
  run_completed_at : Nat
deriving DecidableEq, Repr

/-- The WHERE clause of the watermark query: same table, status `success`,
non-null `filter_end`. -/
def matchingEntries (log : List RunLogEntry) (t : String) : List RunLogEntry :=
  log.filter (fun e =>
    e.table_name == t && e.status == "success" && e.filter_end != none)

/-- `ORDER BY run_completed_at DESC LIMIT 1`: an entry with maximal
`run_completed_at` (on ties, the earlier entry in the list — SQL leaves the
tie unspecified, and the theorems below only use this under a unique
maximum). -/
def fetchLatest : List RunLogEntry → Option RunLogEntry
  | [] => none
  | e :: rest =>
    match fetchLatest rest with
    | none => some e
    | some b => if b.run_completed_at ≤ e.run_completed_at then some e else some b

/-- `get_last_filter_end` (`elt_sources.py` lines 17-50): the `lookup`
argument is the outcome of the `try` block's database access — `Except.error`
models a raised exception, caught and degraded to the sentinel.  When the
query succeeds, the latest matching entry's non-null `filter_end` is
returned (`if row and row[0]` — a non-null timestamp is truthy); with no
matching row the sentinel is returned. -/
def get_last_filter_end (lookup : Except String (List RunLogEntry)) (t : String) : Nat :=
  match lookup with
  | Except.error _ => DEFAULT_INITIAL_VALUE
  | Except.ok log =>
    match fetchLatest (matchingEntries log t) with
    | some e =>
      match e.filter_end with
      | some v => v
      | none => DEFAULT_INITIAL_VALUE
    | none => DEFAULT_INITIAL_VALUE

/-- The watermark as claim C6 words it: the `filter_end` of the most recent
entry with status `success` (no non-null restriction), the sentinel when no
success entry exists.  Written from the spec for comparison with
`get_last_filter_end`; the value is an `Option Nat` because the claim's
phrase "the filter_end value" may denote a NULL. -/
def specWatermark (log : List RunLogEntry) (t : String) : Option Nat :=
  match fetchLatest (log.filter (fun e => e.table_name == t && e.status == "success")) with
  | some e => e.filter_end
  | none => some DEFAULT_INITIAL_VALUE

/-!
### Drive-filename classification (`elt_config.py`, `parse_drive_filename`)

Filenames are modelled as `List Char` (the character list of the Python
`str`).  `get_current_year_suffix()` reads the wall clock, so the current
year string is passed as a parameter.  The regular expression
`^(.+)_(\d{4})$` anchors the four digits to the end of the string, so a
match forces the underscore to sit at index `length - 5` and the greedy
first group to be the first `length - 5` characters (non-empty, hence
`6 ≤ length`); `Char.isDigit` models `\d` (ASCII digits). -/

/-- The characters of the literal `".xlsx"`. -/
def xlsxSuffix : List Char := ['.', 'x', 'l', 's', 'x']

/-- Python `filename.removesuffix(".xlsx")`. -/
def stripXlsx (filename : List Char) : List Char :=
  if xlsxSuffix.isSuffixOf filename then filename.take (filename.length - 5)
  else filename

/-- `re.match(r"^(.+)_(\d{4})$", base)`: return the two groups when the base
decomposes as a non-empty prefix, an underscore, and four final digits.
Because `(\d{4})$` pins the digit group to the last four characters, the
underscore must sit at index `length - 5` and the greedy first group is the
first `length - 5` characters, which `(.+)` requires non-empty
(`6 ≤ length`); `Char.isDigit` models `\d`. -/
def matchBaseYear (base : List Char) : Option (List Char × List Char) :=
  match base.drop (base.length - 5) with
  | c :: y =>
    if c = '_' ∧ 6 ≤ base.length ∧ y.all Char.isDigit then
      some (base.take (base.length - 5), y)
    else none
  | [] => none

/-- `parse_drive_filename` (`elt_config.py` lines 75-123), with the current
year string as a parameter: reject non-`.xlsx` names; accept
`all_properties.xlsx`; for `<base>_<yyyy>.xlsx` require the current year and
a year-partitioned `TABLE_CONFIG` entry named `crm_<base>`; reject the
rest. -/
def parse_drive_filename (currentYYYY : List Char) (filename : List Char) : Option String :=
  if xlsxSuffix.isSuffixOf filename then
    let base := filename.take (filename.length - 5)
    if base = "all_properties".toList then some "crm_properties"
    else
      match matchBaseYear base with
      | some (table_base, year_suffix) =>
        if year_suffix = currentYYYY then
          let table_name := String.mk ("crm_".toList ++ table_base)
          match List.lookup table_name TABLE_CONFIG with
          | some config => if config.year_partitioned then some table_name else none
          | none => none
        else none
      | none => none
  else none

/-!
### Concrete instances used by the theorems below
-/

/-- Shared schema of `raw.crm_leads` and `bronze.crm_leads` in the spec's
concrete merge scenario. -/
def leadsTypes : List (String × String) :=
  [("eventid", "bigint"), ("lastupdate", "timestamp without time zone"), ("name", "text")]

/-- The pre-existing bronze row of the scenario:
`{eventid: 1, lastupdate: "2024-01-01", name: "Old"}` (dates encoded as
`yyyymmdd`). -/
def oldLeadRow : Row :=
  [("eventid", Value.int 1), ("lastupdate", Value.time 20240101), ("name", Value.text "Old")]

/-- The staged raw row of the scenario:
`{eventid: 1, lastupdate: "2024-01-02", name: "X"}`. -/
def newLeadRow : Row :=
  [("eventid", Value.int 1), ("lastupdate", Value.time 20240102), ("name", Value.text "X")]

/-- The `crm_leads` table state of the scenario. -/
def leadsState : TableState :=
  { rawTypes := leadsTypes, bronzeTypes := leadsTypes,
    raw := [newLeadRow], bronze := [oldLeadRow] }

/-- Schema of the `crm_buyers` instance used for the double-run
counterexample. -/
def buyersTypes : List (String × String) :=
  [("entityid", "text"), ("createtime", "timestamp without time zone")]

/-- A single staged buyer row. -/
def buyerRow : Row :=
  [("entityid", Value.text "e1"), ("createtime", Value.time 5)]

/-- Database with one staged `crm_buyers` row and an empty bronze table. -/
def buyersDb : DB :=
  [("crm_buyers",
    { rawTypes := buyersTypes, bronzeTypes := buyersTypes,
      raw := [buyerRow], bronze := [] })]

/-- Config of the single-column merge table used to witness second-run
idempotence. -/
def mergeWitnessCfg : TableConfig :=
  { incremental_column := "k", primary_key := ["k"], write_disposition := "merge",
    year_partitioned := false, date_columns := ["k"] }

/-- State of the single-column merge table used to witness second-run
idempotence. -/
def mergeWitnessState : TableState :=
  { rawTypes := [("k", "text")], bronzeTypes := [("k", "text")],
    raw := [[("k", Value.text "a")]], bronze := [] }

/-- One-column dataframe whose only row has a null (unparsable) incremental
value; used against the sentinel cutoff. -/
def dfNull : Frame :=
  { cols := ["lastupdate"], rows := [[("lastupdate", Value.null)]] }

/-- Two-row dataframe with one row above and one row below a cutoff of 5. -/
def dfCut : Frame :=
  { cols := ["createtime"],
    rows := [[("createtime", Value.time 9)], [("createtime", Value.time 3)]] }

/-- Dataframe whose second row has a null incremental value. -/
def dfNullRow : Frame :=
  { cols := ["eventdate"],
    rows := [[("eventdate", Value.time 9)], [("eventdate", Value.null)]] }

/-- A schema containing only an `unnamed` spreadsheet-artifact column. -/
def unnamedSchema : List (String × String) := [("unnamed_0", "text")]

/-- Raw-side schema of the column-selection example. -/
def demoRawTypes : List (String × String) :=
  [("a", "character varying"), ("unnamed_1", "text"), ("_dlt_load_id", "text"), ("b", "text")]

/-- Bronze-side schema of the column-selection example. -/
def demoBronzeTypes : List (String × String) :=
  [("a", "timestamp without time zone"), ("b", "text"), ("_dlt_load_id", "text"), ("extra", "text")]

/-- Run log with a success entry whose `filter_end` is NULL newer than a
success entry carrying a value. -/
def nullLog : List RunLogEntry :=
  [{ table_name := "crm_leads", status := "success", filter_end := none, run_completed_at := 2 },
   { table_name := "crm_leads", status := "success", filter_end := some 5, run_completed_at := 1 }]

/-- Run log used to witness the amended watermark lookup. -/
def demoLog : List RunLogEntry :=
  [{ table_name := "crm_leads", status := "success", filter_end := some 7, run_completed_at := 3 },
   { table_name := "crm_leads", status := "failure", filter_end := some 9, run_completed_at := 5 },
   { table_name := "crm_events", status := "success", filter_end := some 1, run_completed_at := 9 }]

/-- The entry of `demoLog` that the watermark lookup must pick. -/
def demoLogPick : RunLogEntry :=
  { table_name := "crm_leads", status := "success", filter_end := some 7, run_completed_at := 3 }

/-- A per-table unit of work that throws on `crm_leads` and otherwise runs
the real unit; used to witness error isolation. -/
def failingUnit (t : String) (config : TableConfig) (st : TableState) :
    Except String (TableState × Outcome) :=
  if t = "crm_leads" then Except.error "boom" else realUnit t config st

/-- The `TABLE_CONFIG` entries before `crm_leads`. -/
def tablesBeforeLeads : List (String × TableConfig) :=
  [("crm_properties", crmPropertiesCfg),
   ("crm_buyers", crmBuyersCfg),
   ("crm_sellers", crmSellersCfg),
   ("crm_buyers_sellers", crmBuyersSellersCfg)]

/-- The `TABLE_CONFIG` entries after `crm_leads`. -/
def tablesAfterLeads : List (String × TableConfig) :=
  [("crm_events", crmEventsCfg),
   ("crm_archived", crmArchivedCfg)]

/-- A merge-configured table with an empty primary-key list (no such entry
exists in `TABLE_CONFIG`; the reconciler's branch is still defined on it). -/
def mergeNoPkCfg : TableConfig :=
  { incremental_column := "c", primary_key := [], write_disposition := "merge",
    year_partitioned := false, date_columns := ["c"] }

/-- The selected column list as claim C4 words it: exactly the columns
present in both schemas, ordinary data columns first and `_dlt_` columns
last, with no further exclusion.  Written from the spec for comparison with
`orderedColumns`. -/
def specSelectedCols (rawTypes bronzeTypes : List (String × String)) : List String :=
  let all_cols := rawTypes.map Prod.fst
  let data_cols := all_cols.filter (fun c => !(strStartsWith c "_dlt_"))
  let dlt_cols := all_cols.filter (fun c => strStartsWith c "_dlt_")
  (data_cols ++ dlt_cols).filter (fun c => (List.lookup c bronzeTypes).isSome)

/-!
### Helper lemmas
-/

/-- A lookup succeeds exactly on the keys of the association list. -/
theorem lookup_isSome_iff {β : Type} (l : List (String × β)) (c : String) :
    (List.lookup c l).isSome = true ↔ c ∈ l.map Prod.fst := by
  induction l with
  | nil => simp [List.lookup]
  | cons p ps ih =>
    obtain ⟨k, v⟩ := p
    by_cases h : c = k
    · subst h
      simp [List.lookup]
    · have hb : (c == k) = false := by simp [h]
      simp [List.lookup, hb, ih, h]

/-- Looking a selected column up in the projected row reads the original
row's value. -/
theorem lookup_projectRow (cols : List String) (r : Row) (c : String) (hc : c ∈ cols) :
    List.lookup c (projectRow cols r) = some (Row.get r c) := by
  induction cols with
  | nil => cases hc
  | cons a as ih =>
    by_cases h : c = a
    · subst h; simp [projectRow, List.lookup]
    · have hc' : c ∈ as := by
        rcases List.mem_cons.mp hc with h1 | h1
        · exact absurd h1 h
        · exact h1
      have hb : (c == a) = false := by simp [h]
      simpa [projectRow, List.lookup, hb] using ih hc'

/-- Projection preserves the value of every selected column. -/
theorem projectRow_get (cols : List String) (r : Row) (c : String) (hc : c ∈ cols) :
    Row.get (projectRow cols r) c = Row.get r c := by
  unfold Row.get
  rw [lookup_projectRow cols r c hc]
  rfl

/-- SQL equality is reflexive on non-null values. -/
theorem Value.sqlEq_self (v : Value) (h : v ≠ Value.null) : Value.sqlEq v v = true := by
  cases v with
  | null => exact absurd rfl h
  | text s => simp [Value.sqlEq]
  | time t => simp [Value.sqlEq]
  | int n => simp [Value.sqlEq]

/-- A `_dlt_` bookkeeping column is not an `unnamed` artifact column. -/
theorem not_unnamed_of_dlt (c : String) (h : strStartsWith c "_dlt_" = true) :
    strStartsWith c "unnamed" = false := by
  unfold strStartsWith at h ⊢
  cases hc : c.toList with
  | nil => rw [hc] at h; simp [List.isPrefixOf] at h
  | cons a l =>
    rw [hc] at h
    have ha : a = '_' := by
      have h5 : ("_dlt_".toList) = ['_', 'd', 'l', 't', '_'] := rfl
      rw [h5] at h
      simp [List.isPrefixOf] at h
      exact h.1.symm
    subst ha
    have h7 : ("unnamed".toList) = ['u', 'n', 'n', 'a', 'm', 'e', 'd'] := rfl
    rw [h7]
    simp [List.isPrefixOf]

/-- The projection of a raw row onto columns containing the primary key
matches its origin row under the merge join condition, provided the
primary-key values are non-null. -/
theorem rowsMatch_projectRow (pk cols : List String) (r : Row)
    (hsel : ∀ c ∈ pk, c ∈ cols) (hnn : ∀ c ∈ pk, Row.get r c ≠ Value.null) :
    rowsMatch pk (projectRow cols r) r = true := by
  unfold rowsMatch
  rw [List.all_eq_true]
  intro c hc
  rw [projectRow_get cols r c (hsel c hc)]
  exact Value.sqlEq_self (Row.get r c) (hnn c hc)

/-- Deleting the raw batch's keys again right after inserting the batch's
projection removes every inserted row. -/
theorem mergeDelete_inserted (pk cols : List String) (raw : List Row)
    (hsel : ∀ c ∈ pk, c ∈ cols)
    (hnn : ∀ r ∈ raw, ∀ c ∈ pk, Row.get r c ≠ Value.null) :
    mergeDelete pk (raw.map (projectRow cols)) raw = [] := by
  unfold mergeDelete
  rw [List.filter_eq_nil_iff]
  intro b hb
  rcases List.mem_map.mp hb with ⟨r, hr, hbr⟩
  subst hbr
  have hany : raw.any (fun r0 => rowsMatch pk (projectRow cols r) r0) = true :=
    List.any_eq_true.mpr ⟨r, hr, rowsMatch_projectRow pk cols r hsel (hnn r hr)⟩
  simp [hany]

/-- The merge delete is idempotent. -/
theorem mergeDelete_idem (pk : List String) (bronze raw : List Row) :
    mergeDelete pk (mergeDelete pk bronze raw) raw = mergeDelete pk bronze raw := by
  unfold mergeDelete
  rw [List.filter_filter]
  simp

/-- The merge delete distributes over appended relations. -/
theorem mergeDelete_append (pk : List String) (b1 b2 raw : List Row) :
    mergeDelete pk (b1 ++ b2) raw = mergeDelete pk b1 raw ++ mergeDelete pk b2 raw := by
  unfold mergeDelete
  exact List.filter_append b1 b2

/-- The entry picked by `fetchLatest` belongs to the list. -/
theorem fetchLatest_mem (l : List RunLogEntry) (e : RunLogEntry)
    (h : fetchLatest l = some e) : e ∈ l := by
  induction l with
  | nil => simp [fetchLatest] at h
  | cons a rest ih =>
    rw [fetchLatest] at h
    cases hr : fetchLatest rest with
    | none =>
      rw [hr] at h
      simp at h
      simp [h]
    | some b =>
      rw [hr] at h
      by_cases hle : b.run_completed_at ≤ a.run_completed_at
      · simp [hle] at h
        simp [h]
      · simp [hle] at h
        exact List.mem_cons_of_mem a (ih (h ▸ hr))

/-- `fetchLatest` returns the entry with the strictly greatest completion
time whenever that entry is unique. -/
theorem fetchLatest_eq_of_max (l : List RunLogEntry) (en : RunLogEntry)
    (hmem : en ∈ l)
    (hmax : ∀ e ∈ l, e ≠ en → e.run_completed_at < en.run_completed_at) :
    fetchLatest l = some en := by
  induction l with
  | nil => cases hmem
  | cons a rest ih =>
    rw [fetchLatest]
    rcases List.mem_cons.mp hmem with ha | hrest
    · subst ha
      cases hr : fetchLatest rest with
      | none => rfl
      | some b =>
        have hbmem : b ∈ rest := fetchLatest_mem rest b hr
        by_cases hbe : b = en
        · subst hbe
          simp
        · have : b.run_completed_at < en.run_completed_at :=
            hmax b (List.mem_cons_of_mem en hbmem) hbe
          have hle : b.run_completed_at ≤ en.run_completed_at := Nat.le_of_lt this
          simp [hle]
    · have hrec : fetchLatest rest = some en :=
        ih hrest (fun e he hne => hmax e (List.mem_cons_of_mem a he) hne)
      rw [hrec]
      by_cases hae : a = en
      · subst hae
        simp
      · have hlt : a.run_completed_at < en.run_completed_at :=
          hmax a (List.mem_cons_self a rest) hae

        have : ¬ en.run_completed_at ≤ a.run_completed_at := by omega
        simp [this]

/-- Every processed table receives exactly one entry in the results map, in
configuration order. -/
theorem transformWith_keys
    (unit : String → TableConfig → TableState → Except String (TableState × Outcome))
    (tables : List (String × TableConfig)) (db : DB) :
    ((transformWith unit tables db).2).map Prod.fst = tables.map Prod.fst := by
  induction tables generalizing db with
  | nil => simp [transformWith]
  | cons p rest ih =>
    obtain ⟨t, config⟩ := p
    rw [transformWith]
    cases hu : unit t config (dbGet db t) with
    | ok r =>
      obtain ⟨st, oc⟩ := r
      simp [ih]
    | error e =>
      simp [ih]

/-- The table loop processes a concatenation of configurations by running
the first block, then the second block on the database the first block
produced, concatenating the outcome lists. -/
theorem transformWith_append
    (unit : String → TableConfig → TableState → Except String (TableState × Outcome))
    (l1 l2 : List (String × TableConfig)) (db : DB) :
    transformWith unit (l1 ++ l2) db =
      ((transformWith unit l2 (transformWith unit l1 db).1).1,
       (transformWith unit l1 db).2 ++ (transformWith unit l2 (transformWith unit l1 db).1).2) := by
  induction l1 generalizing db with
  | nil => simp [transformWith]
  | cons p rest ih =>
    obtain ⟨t, config⟩ := p
    rw [List.cons_append, transformWith, transformWith]
    cases hu : unit t config (dbGet db t) with
    | ok r =>
      obtain ⟨st, oc⟩ := r
      simp [ih]
    | error e =>
      simp [ih]

/-!
### Claim theorems
-/

/-- Claim C1, counterexample: in the `crm_leads` merge scenario (bronze row
`{eventid: 1, lastupdate: 2024-01-01, name: Old}`, raw row
`{eventid: 1, lastupdate: 2024-01-02, name: X}`), bronze does NOT end with
exactly one row for `eventid = 1`: the delete is keyed on the full primary
key `[eventid, lastupdate]` and the old row's tuple is absent from raw, so
the old row survives and bronze holds two rows for `eventid = 1`. -/
theorem crm_leads_merge_scenario_cex :
    ¬ (((runTable crmLeadsCfg leadsState).1.bronze.filter
          (fun r => Row.get r "eventid" == Value.int 1)).length = 1) ∧
    ((runTable crmLeadsCfg leadsState).1.bronze.filter
        (fun r => Row.get r "eventid" == Value.int 1)).length = 2 := by
  decide

/-- Claim C1 as amended: after the merge, bronze contains exactly the two
rows with `eventid = 1` — the pre-existing row (lastupdate 2024-01-01, name
"Old"), untouched because its full primary-key tuple does not occur in raw,
followed by the inserted raw row (lastupdate 2024-01-02, name "X") — and the
run reports success with one row. -/
theorem crm_leads_merge_scenario_amended :
    (runTable crmLeadsCfg leadsState).1.bronze = [oldLeadRow, newLeadRow] ∧
    (runTable crmLeadsCfg leadsState).2 = Outcome.success 1 := by
  decide

/-- Claim C8: a table whose raw relation is empty is reported as
`{status: skipped, rows: 0}` and its state — bronze included — is left
entirely unmodified. -/
theorem transform_skips_empty_raw (config : TableConfig) (st : TableState)
    (h : st.raw = []) :
    runTable config st = (st, Outcome.skipped 0) := by
  simp [runTable, h]

/-- Witness for the empty-raw skip at a concrete table state. -/
theorem transform_skips_empty_raw_witness :
    runTable crmBuyersCfg emptyTableState = (emptyTableState, Outcome.skipped 0) :=
  transform_skips_empty_raw crmBuyersCfg emptyTableState rfl

/-- Claim C9: a table configured with strategy `merge` but an empty
primary-key list takes the append path — every raw row (projected onto the
selected columns) is inserted and nothing is deleted from bronze. -/
theorem merge_without_pk_appends (config : TableConfig) (st : TableState)
    (hm : config.write_disposition = "merge") (hpk : config.primary_key = [])
    (hne : st.raw ≠ []) :
    runTable config st =
      ({ st with bronze := st.bronze ++
          st.raw.map (projectRow (orderedColumns st.rawTypes st.bronzeTypes)) },
       Outcome.success st.raw.length) := by
  have hlen : ¬ st.raw.length = 0 := by
    simpa [List.length_eq_zero] using hne
  simp [runTable, hlen, hpk]

/-- Witness for the merge-without-primary-key append path at a concrete
state. -/
theorem merge_without_pk_appends_witness :
    runTable mergeNoPkCfg leadsState =
      ({ leadsState with bronze := leadsState.bronze ++
          leadsState.raw.map (projectRow (orderedColumns leadsState.rawTypes leadsState.bronzeTypes)) },
       Outcome.success leadsState.raw.length) :=
  merge_without_pk_appends mergeNoPkCfg leadsState rfl rfl (by decide)

/-- Claim C10: whenever the incremental filter applies (the incremental
column is among the parsed columns), a row whose incremental value was
coerced to null is excluded from the emitted rows, because a null timestamp
never compares strictly greater than the cutoff. -/
theorem incremental_filter_drops_null (col : String) (cutoff : Nat) (df : Frame)
    (hcol : col ∈ df.cols) (r : Row) (hnull : Row.get r col = Value.null) :
    r ∉ table_data col cutoff df := by
  intro hmem
  rw [table_data, if_pos hcol] at hmem
  have := (List.mem_filter.mp hmem).2
  rw [hnull] at this
  simp [Value.gtTime] at this

/-- Witness for the null-incremental exclusion on a concrete dataframe. -/
theorem incremental_filter_drops_null_witness :
    [("eventdate", Value.null)] ∉ table_data "eventdate" 5 dfNullRow :=
  incremental_filter_drops_null "eventdate" 5 dfNullRow (by decide)
    [("eventdate", Value.null)] (by decide)

/-- Claim C3, counterexample: with the cutoff equal to the sentinel minimum
the code still filters (a `pd.Timestamp` cutoff is always truthy), dropping
the null-valued row, while the claim (filter only when the cutoff exceeds
the sentinel) keeps every row. -/
theorem incremental_filter_sentinel_cex :
    table_data "lastupdate" DEFAULT_INITIAL_VALUE dfNull ≠
      specExtractFilter "lastupdate" DEFAULT_INITIAL_VALUE dfNull ∧
    table_data "lastupdate" DEFAULT_INITIAL_VALUE dfNull = [] ∧
    specExtractFilter "lastupdate" DEFAULT_INITIAL_VALUE dfNull = dfNull.rows := by
  decide

/-- Claim C3 as amended: when the incremental column is present the
extractor keeps exactly the rows whose incremental value is strictly
greater than the cutoff — the filter applies for every cutoff value, the
sentinel included, since the truthiness guard on a timestamp cutoff is
always true; when the column is absent all rows are kept; consequently a
row valued `time t` survives the extraction if and only if `cutoff < t`
(watermark monotonicity). -/
theorem incremental_filter_characterization (col : String) (cutoff : Nat) (df : Frame) :
    (col ∈ df.cols →
      table_data col cutoff df =
        df.rows.filter (fun r => Value.gtTime (Row.get r col) cutoff)) ∧
    (col ∉ df.cols → table_data col cutoff df = df.rows) ∧
    (col ∈ df.cols → ∀ r ∈ df.rows, ∀ t, Row.get r col = Value.time t →
      (r ∈ table_data col cutoff df ↔ cutoff < t)) := by
  refine ⟨fun h => by rw [table_data, if_pos h],
          fun h => by rw [table_data, if_neg h],
          fun h r hr t ht => ?_⟩
  rw [table_data, if_pos h]
  rw [List.mem_filter]
  simp [hr, ht, Value.gtTime]

/-- Witness for the amended extraction filter on a concrete dataframe: the
cutoff 5 keeps the row timed 9 and drops the row timed 3. -/
theorem incremental_filter_characterization_witness :
    table_data "createtime" 5 dfCut =
      dfCut.rows.filter (fun r => Value.gtTime (Row.get r "createtime") 5) ∧
    table_data "createtime" 5 dfCut = [[("createtime", Value.time 9)]] :=
  ⟨(incremental_filter_characterization "createtime" 5 dfCut).1 (by decide),
   by decide⟩

/-- Claim C2, counterexample: running `transform_to_bronze` twice on a
database with one staged `crm_buyers` row (an append table) and no new raw
rows in between: the second run reports success, not skipped, and the
bronze row count grows from 1 to 2, because the reconciler never empties
the raw table. -/
theorem reconciler_second_run_cex :
    ¬ (((transform_to_bronze (transform_to_bronze buyersDb).1).2).lookup "crm_buyers"
          = some (Outcome.skipped 0)) ∧
    ((transform_to_bronze (transform_to_bronze buyersDb).1).2).lookup "crm_buyers"
        = some (Outcome.success 1) ∧
    (dbGet (transform_to_bronze buyersDb).1 "crm_buyers").bronze.length = 1 ∧
    (dbGet (transform_to_bronze (transform_to_bronze buyersDb).1).1 "crm_buyers").bronze.length = 2 := by
  decide

/-- Claim C2 as amended: for a merge-strategy table whose primary-key
columns are among the selected columns and non-null in raw, a second run of
the reconciler's unit of work on an unchanged raw table leaves bronze
exactly as the first run left it; the second run reports skipped only when
raw is empty, and otherwise reports success with the raw row count.
(Append-strategy tables instead grow by the raw row count on every run, as
the counterexample shows.) -/
theorem runTable_merge_eq (config : TableConfig) (st : TableState)
    (hz : ¬ st.raw.length = 0)
    (hmerge : config.write_disposition = "merge") (hpk : config.primary_key ≠ []) :
    runTable config st =
      ({ st with bronze := mergeDelete config.primary_key st.bronze st.raw ++
          st.raw.map (projectRow (orderedColumns st.rawTypes st.bronzeTypes)) },
       Outcome.success st.raw.length) := by
  simp [runTable, hz, hmerge, hpk]

theorem reconciler_second_run_merge_idempotent (config : TableConfig) (st : TableState)
    (hmerge : config.write_disposition = "merge") (hpk : config.primary_key ≠ [])
    (hsel : ∀ c ∈ config.primary_key, c ∈ orderedColumns st.rawTypes st.bronzeTypes)
    (hnn : ∀ r ∈ st.raw, ∀ c ∈ config.primary_key, Row.get r c ≠ Value.null) :
    (runTable config (runTable config st).1).1.bronze = (runTable config st).1.bronze ∧
    (runTable config (runTable config st).1).2 =
      (if st.raw.length = 0 then Outcome.skipped 0 else Outcome.success st.raw.length) := by
  by_cases hz : st.raw.length = 0
  · simp [runTable, hz]
  · rw [runTable_merge_eq config st hz hmerge hpk]
    dsimp only
    rw [runTable_merge_eq config
      { st with bronze := mergeDelete config.primary_key st.bronze st.raw ++
          st.raw.map (projectRow (orderedColumns st.rawTypes st.bronzeTypes)) }
      hz hmerge hpk]
    dsimp only
    constructor
    · rw [mergeDelete_append, mergeDelete_idem,
        mergeDelete_inserted config.primary_key
          (orderedColumns st.rawTypes st.bronzeTypes) st.raw hsel hnn]
      simp
    · simp [hz]

/-- Witness for the amended second-run idempotence on a concrete
single-column merge table. -/
theorem reconciler_second_run_merge_idempotent_witness :
    (runTable mergeWitnessCfg (runTable mergeWitnessCfg mergeWitnessState).1).1.bronze
        = (runTable mergeWitnessCfg mergeWitnessState).1.bronze ∧
    (runTable mergeWitnessCfg (runTable mergeWitnessCfg mergeWitnessState).1).2 =
      (if mergeWitnessState.raw.length = 0 then Outcome.skipped 0
       else Outcome.success mergeWitnessState.raw.length) :=
  reconciler_second_run_merge_idempotent mergeWitnessCfg mergeWitnessState rfl
    (by decide) (by decide) (by decide)

/-- Claim C4, counterexample: a column named `unnamed_0` that exists in
both the raw and the bronze schema is still dropped from the selection —
the code excludes every `unnamed`-prefixed column outright, not merely
those present only in raw, so the selected list is not "exactly the columns
present in both schemas". -/
theorem column_selection_unnamed_cex :
    orderedColumns unnamedSchema unnamedSchema ≠
      specSelectedCols unnamedSchema unnamedSchema ∧
    orderedColumns unnamedSchema unnamedSchema = [] ∧
    specSelectedCols unnamedSchema unnamedSchema = ["unnamed_0"] := by
  decide

/-- Claim C4 as amended: the selected columns are exactly those present in
both the raw and bronze schemas whose name does not start with `unnamed`
(such artifact columns are dropped even when bronze has them); the list is
deterministically ordered with ordinary data columns first and `_dlt_`
bookkeeping columns last; and a selected column's expression is a CAST to
the bronze-side declared type exactly when the raw-side declared type
differs from it. -/
theorem column_selection_characterization (rawTypes bronzeTypes : List (String × String)) :
    (∀ c, c ∈ orderedColumns rawTypes bronzeTypes ↔
      (c ∈ rawTypes.map Prod.fst ∧ (List.lookup c bronzeTypes).isSome = true ∧
       strStartsWith c "unnamed" = false)) ∧
    (∃ ds bs, orderedColumns rawTypes bronzeTypes = ds ++ bs ∧
      (∀ c ∈ ds, strStartsWith c "_dlt_" = false) ∧
      (∀ c ∈ bs, strStartsWith c "_dlt_" = true)) ∧
    (selectExprs rawTypes bronzeTypes = (orderedColumns rawTypes bronzeTypes).map (fun c =>
      match List.lookup c rawTypes, List.lookup c bronzeTypes with
      | some rt, some bt => if rt = bt then ColExpr.plain c else ColExpr.cast c bt
      | _, _ => ColExpr.plain c)) := by
  have hchar : ∀ c, c ∈ orderedColumns rawTypes bronzeTypes ↔
      (c ∈ rawTypes.map Prod.fst ∧ (List.lookup c bronzeTypes).isSome = true ∧
       strStartsWith c "unnamed" = false) := by
    intro c
    unfold orderedColumns
    rw [List.mem_filter, List.mem_append]
    constructor
    · rintro ⟨hin, hsome⟩
      rcases hin with hdata | hdlt
      · rcases List.mem_filter.mp hdata with ⟨hall, hprop⟩
        simp only [Bool.and_eq_true, Bool.not_eq_true'] at hprop
        exact ⟨hall, hsome, hprop.2⟩
      · rcases List.mem_filter.mp hdlt with ⟨hall, hprop⟩
        exact ⟨hall, hsome, not_unnamed_of_dlt c hprop⟩
    · rintro ⟨hall, hsome, hun⟩
      refine ⟨?_, hsome⟩
      by_cases hd : strStartsWith c "_dlt_" = true
      · right
        exact List.mem_filter.mpr ⟨hall, hd⟩
      · left
        refine List.mem_filter.mpr ⟨hall, ?_⟩
        have hd' : strStartsWith c "_dlt_" = false := by
          revert hd; cases strStartsWith c "_dlt_" <;> simp
        simp [hd', hun]
  refine ⟨hchar, ⟨?_, ?_, ?_, ?_, ?_⟩, ?_⟩
  · exact ((rawTypes.map Prod.fst).filter
      (fun c => !(strStartsWith c "_dlt_") && !(strStartsWith c "unnamed"))).filter
      (fun c => (List.lookup c bronzeTypes).isSome)
  · exact ((rawTypes.map Prod.fst).filter
      (fun c => strStartsWith c "_dlt_")).filter
      (fun c => (List.lookup c bronzeTypes).isSome)
  · unfold orderedColumns
    rw [List.filter_append]
  · intro c hc
    have hprop := (List.mem_filter.mp (List.mem_filter.mp hc).1).2
    simp only [Bool.and_eq_true, Bool.not_eq_true'] at hprop
    exact hprop.1
  · intro c hc
    exact (List.mem_filter.mp (List.mem_filter.mp hc).1).2
  · unfold selectExprs
    apply List.map_congr_left
    intro c hc
    obtain ⟨hkey, hsome, _⟩ := (hchar c).mp hc
    obtain ⟨rt, hrt⟩ := Option.isSome_iff_exists.mp ((lookup_isSome_iff rawTypes c).mpr hkey)
    obtain ⟨bt, hbt⟩ := Option.isSome_iff_exists.mp hsome
    simp only [typeOf, hrt, hbt]
    by_cases h : rt = bt <;> simp [h]

/-- Witness for the amended column-selection characterization on a concrete
pair of schemas. -/
theorem column_selection_characterization_witness :
    "a" ∈ orderedColumns demoRawTypes demoBronzeTypes ↔
      ("a" ∈ demoRawTypes.map Prod.fst ∧
       (List.lookup "a" demoBronzeTypes).isSome = true ∧
       strStartsWith "a" "unnamed" = false) :=
  (column_selection_characterization demoRawTypes demoBronzeTypes).1 "a"

/-- Claim C6, counterexample: when the most recent success entry has a NULL
`filter_end` (run log `nullLog`), the lookup does not return that entry's
`filter_end` — the query's `filter_end IS NOT NULL` clause skips it and the
older entry's value 5 is returned instead, so the claim's description of
the result is false at this log. -/
theorem watermark_lookup_nullfilterend_cex :
    some (get_last_filter_end (Except.ok nullLog) "crm_leads") ≠
      specWatermark nullLog "crm_leads" ∧
    get_last_filter_end (Except.ok nullLog) "crm_leads" = 5 ∧
    specWatermark nullLog "crm_leads" = none := by
  decide

/-- Claim C6 as amended: the watermark lookup returns the `filter_end` of
the most recent success entry for the table among those with a non-null
`filter_end`; it returns the sentinel minimum when no such entry exists and
when the lookup itself fails, and a lookup failure is absorbed (the
function is total on the `Except`-modelled outcome, never re-raising). -/
theorem watermark_lookup_spec (lookup : Except String (List RunLogEntry)) (t : String) :
    (∀ e, lookup = Except.error e →
      get_last_filter_end lookup t = DEFAULT_INITIAL_VALUE) ∧
    (∀ log, lookup = Except.ok log → matchingEntries log t = [] →
      get_last_filter_end lookup t = DEFAULT_INITIAL_VALUE) ∧
    (∀ log en v, lookup = Except.ok log → en ∈ matchingEntries log t →
      en.filter_end = some v →
      (∀ e2 ∈ matchingEntries log t, e2 ≠ en →
        e2.run_completed_at < en.run_completed_at) →
      get_last_filter_end lookup t = v) := by
  refine ⟨?_, ?_, ?_⟩
  · intro e he
    rw [he, get_last_filter_end]
  · intro log hlog hempty
    rw [hlog, get_last_filter_end, hempty]
    rfl
  · intro log en v hlog hen hv hmax
    rw [hlog, get_last_filter_end,
      fetchLatest_eq_of_max (matchingEntries log t) en hen hmax]
    simp [hv]

/-- Witness for the amended watermark lookup on a concrete run log: the
only matching `crm_leads` success entry carries `filter_end = 7`. -/
theorem watermark_lookup_spec_witness :
    get_last_filter_end (Except.ok demoLog) "crm_leads" = 7 :=
  (watermark_lookup_spec (Except.ok demoLog) "crm_leads").2.2 demoLog demoLogPick 7
    rfl (by decide) rfl (by decide)

/-- Claim C7: a table whose unit of work raises is recorded with an error
outcome carrying the exception detail, the database is left as it was
before that table (the transaction rolls back), every remaining table is
still processed exactly as it would have been, and the results map carries
one outcome per configured table in order. -/
theorem transform_error_isolation
    (unit : String → TableConfig → TableState → Except String (TableState × Outcome))
    (pre post : List (String × TableConfig)) (t : String) (config : TableConfig)
    (e : String) (db : DB)
    (herr : unit t config (dbGet (transformWith unit pre db).1 t) = Except.error e) :
    (transformWith unit (pre ++ (t, config) :: post) db).2
      = (transformWith unit pre db).2 ++ (t, Outcome.error e) ::
          (transformWith unit post (transformWith unit pre db).1).2 ∧
    ((transformWith unit (pre ++ (t, config) :: post) db).2).map Prod.fst
      = (pre ++ (t, config) :: post).map Prod.fst := by
  refine ⟨?_, transformWith_keys unit (pre ++ (t, config) :: post) db⟩
  rw [transformWith_append]
  dsimp only
  rw [transformWith, herr]

/-- Witness for error isolation: a unit of work that throws on `crm_leads`
still yields one outcome per `TABLE_CONFIG` entry, with the error recorded
for `crm_leads` and the later tables processed. -/
theorem transform_error_isolation_witness :
    (transformWith failingUnit (tablesBeforeLeads ++ ("crm_leads", crmLeadsCfg) :: tablesAfterLeads) []).2
      = (transformWith failingUnit tablesBeforeLeads []).2 ++ ("crm_leads", Outcome.error "boom") ::
          (transformWith failingUnit tablesAfterLeads (transformWith failingUnit tablesBeforeLeads []).1).2 ∧
    ((transformWith failingUnit (tablesBeforeLeads ++ ("crm_leads", crmLeadsCfg) :: tablesAfterLeads) []).2).map Prod.fst
      = (tablesBeforeLeads ++ ("crm_leads", crmLeadsCfg) :: tablesAfterLeads).map Prod.fst :=
  transform_error_isolation failingUnit tablesBeforeLeads tablesAfterLeads
    "crm_leads" crmLeadsCfg "boom" [] rfl

/-- Length of a base that splits as `tb ++ '_' :: y` with a four-digit
year. -/
theorem split_length (tb y : List Char) (hy4 : y.length = 4) :
    (tb ++ '_' :: y).length = tb.length + 5 := by
  rw [List.length_append, List.length_cons, hy4]

/-- Dropping all but the last five characters of such a base yields the
underscore and the year. -/
theorem split_drop5 (tb y : List Char) (hy4 : y.length = 4) :
    (tb ++ '_' :: y).drop ((tb ++ '_' :: y).length - 5) = '_' :: y := by
  have hlen := split_length tb y hy4
  have hidx : (tb ++ '_' :: y).length - 5 = tb.length := by omega
  rw [hidx]
  exact List.drop_left tb ('_' :: y)

/-- Dropping all but the last four characters of such a base yields the
year group. -/
theorem split_drop4 (tb y : List Char) (hy4 : y.length = 4) :
    (tb ++ '_' :: y).drop ((tb ++ '_' :: y).length - 4) = y := by
  have hlen := split_length tb y hy4
  have hcons : tb ++ '_' :: y = (tb ++ ['_']) ++ y := by
    rw [List.append_cons]
  have hidx : (tb ++ '_' :: y).length - 4 = (tb ++ ['_']).length := by
    simp only [List.length_append, List.length_cons, List.length_nil, hy4]
    omega
  rw [hidx, hcons]
  exact List.drop_left (tb ++ ['_']) y

/-- The regex model succeeds on every well-formed `<base>_<yyyy>` split,
returning the year group. -/
theorem matchBaseYear_of_split (tb y : List Char) (htb : tb ≠ []) (hy4 : y.length = 4)
    (hdig : y.all Char.isDigit = true) :
    matchBaseYear (tb ++ '_' :: y) =
      some ((tb ++ '_' :: y).take ((tb ++ '_' :: y).length - 5), y) := by
  have h1 : 1 ≤ tb.length := List.length_pos.mpr htb
  have hlen := split_length tb y hy4
  unfold matchBaseYear
  rw [split_drop5 tb y hy4]
  dsimp only
  rw [if_pos ⟨rfl, by omega, hdig⟩]

/-- Claim C5: the classifier rejects every filename whose base (extension
stripped) matches `<base>_<4-digit-year>` with a year different from the
current year; and on every input it returns either a table name known to
`TABLE_CONFIG` or no match.  The function is total by construction — the
Python code's only exit points are `return` statements, so it never
raises. -/
theorem parse_drive_filename_spec :
    (∀ (current f tb y : List Char),
      stripXlsx f = tb ++ '_' :: y → tb ≠ [] → y.length = 4 →
      y.all Char.isDigit = true → y ≠ current →
      parse_drive_filename current f = none) ∧
    (∀ (current f : List Char),
      parse_drive_filename current f = none ∨
      ∃ t, parse_drive_filename current f = some t ∧
        (List.lookup t TABLE_CONFIG).isSome = true) := by
  constructor
  · intro current f tb y hsplit htb hy4 hdig hne
    cases hsuf : xlsxSuffix.isSuffixOf f with
    | false => simp [parse_drive_filename, hsuf]
    | true =>
      rw [stripXlsx, if_pos hsuf] at hsplit
      have hnap : ¬ (f.take (f.length - 5) = "all_properties".toList) := by
        intro hap
        have h1 : ("all_properties".toList).drop (("all_properties".toList).length - 4) = y := by
          rw [← hap, hsplit]
          exact split_drop4 tb y hy4
        have h2 : y = ['t', 'i', 'e', 's'] := by rw [← h1]; rfl
        rw [h2] at hdig
        exact absurd hdig (by decide)
      rw [parse_drive_filename, if_pos hsuf]
      simp only [hsplit] at hnap ⊢
      rw [if_neg hnap, matchBaseYear_of_split tb y htb hy4 hdig]
      simp [hne]
  · intro current f
    cases hsuf : xlsxSuffix.isSuffixOf f with
    | false =>
      left
      simp [parse_drive_filename, hsuf]
    | true =>
      rw [parse_drive_filename, if_pos hsuf]
      by_cases hap : f.take (f.length - 5) = "all_properties".toList
      · right
        refine ⟨"crm_properties", ?_, rfl⟩
        rw [if_pos hap]
      · rw [if_neg hap]
        cases hmb : matchBaseYear (f.take (f.length - 5)) with
        | none => left; rfl
        | some p =>
          obtain ⟨tb, y⟩ := p
          dsimp only
          by_cases hyc : y = current
          · rw [if_pos hyc]
            cases hlk : List.lookup (String.mk ("crm_".toList ++ tb)) TABLE_CONFIG with
            | none =>
              left
              rfl
            | some config =>
              cases hyp : config.year_partitioned with
              | false =>
                left
                dsimp only
                rw [if_neg (by simp [hyp])]
              | true =>
                right
                refine ⟨String.mk ("crm_".toList ++ tb), ?_, ?_⟩
                · dsimp only
                  rw [if_pos hyp]
                · rw [hlk]
                  rfl
          · left
            rw [if_neg hyc]

/-- Witness for the classifier: `buyers_2025.xlsx` is rejected when the
current year is 2026, via the wrong-year clause. -/
theorem parse_drive_filename_spec_witness :
    parse_drive_filename ("2026".toList) ("buyers_2025.xlsx".toList) = none :=
  parse_drive_filename_spec.1 ("2026".toList) ("buyers_2025.xlsx".toList)
    ("buyers".toList) ("2025".toList) (by decide) (by decide) (by decide)
    (by decide) (by decide)
